import Mathlib

/-!
Verification of `src/scripts/update-progress.py` (TopicTracker progress updater).

The script is a linear pipeline: fetch issues from the GitHub API, aggregate
metrics, compute a velocity over a trailing 7-day window, classify six fixed
development phases, and rewrite `progress.yaml` in place.

Shallow embedding conventions:
* An issue record keeps the fields the script reads: `title`, `state`
  ("open"/"closed"), `labels` (list of objects with a `name` field),
  `closed_at`, and the truthiness of the optional `pull_request` marker.
* `closed_at` holds the POSIX timestamp (integer seconds since the epoch)
  that `datetime.fromisoformat(... .replace("Z", "+00:00")).timestamp()`
  would produce; `none` models a missing/null value, on which the Python
  expression raises (modelled as `Option` failure).
* Python floats are modelled as rationals, and timestamps at second
  granularity as integers; `datetime.now(timezone.utc)` is an explicit
  `now : Int` parameter (seconds) and `.isoformat()` an explicit string
  parameter, both captured once per call as in the script.
* YAML mappings loaded by `yaml.safe_load` are Python dicts; they are modelled
  as insertion-ordered association lists with the exact dict semantics of
  `d[k] = v` (overwrite in place if present, else append) and `d.update(m)`.
-/

namespace TopicTracker

/-- One element of an issue's `labels` array: an object with a `name` field. -/
structure Label where
  name : String
  deriving DecidableEq, Repr

/-- An issue record as read by the script from the GitHub API response. -/
structure Issue where
  title : String
  state : String
  labels : List Label
  closed_at : Option Int
  pull_request : Bool
  deriving DecidableEq, Repr

/-- The dict returned by `get_project_metrics` (four integer counters). -/
structure Metrics where
  total_tasks : Nat
  completed_tasks : Nat
  in_progress_tasks : Nat
  blocked_tasks : Nat
  deriving DecidableEq, Repr

/-- Helper for Python's substring test on lists of characters:
`charsContain pat l` is true iff `pat` occurs contiguously inside `l`. -/
def charsContain (pat : List Char) : List Char → Bool
  | [] => pat.isEmpty
  | c :: rest => pat.isPrefixOf (c :: rest) || charsContain pat rest

/-- Python's `pat in s` substring containment on strings. -/
def strContains (s pat : String) : Bool := charsContain pat.data s.data

/-- `any(label["name"] == "in-progress" for label in i["labels"])` guarded by
`i["state"] == "open"` — the open-and-in-progress test used both in
`get_project_metrics` and in `get_phase_status`. -/
def openInProgress (i : Issue) : Bool :=
  i.state == "open" && i.labels.any fun l => l.name == "in-progress"

/-- The open-and-blocked test of `get_project_metrics`. -/
def openBlocked (i : Issue) : Bool :=
  i.state == "open" && i.labels.any fun l => l.name == "blocked"

/-- `get_project_metrics` (lines 28-42): the four counters. -/
def get_project_metrics (issues : List Issue) : Metrics :=
  { total_tasks := (issues.filter fun i => !i.pull_request).length
    completed_tasks :=
      (issues.filter fun i => i.state == "closed" && !i.pull_request).length
    in_progress_tasks := (issues.filter openInProgress).length
    blocked_tasks := (issues.filter openBlocked).length }

/-- The list comprehension at lines 52-53: keep the closed issues whose
parsed `closed_at` timestamp is strictly above `now - 7*24*60*60`; a missing
timestamp makes the whole computation raise (here: return `none`). -/
def recentClosed (now : Int) : List Issue → Option (List Issue)
  | [] => some []
  | i :: rest =>
    match i.closed_at with
    | none => none
    | some t =>
      (recentClosed now rest).map fun r =>
        if now - 7 * 24 * 60 * 60 < t then i :: r else r

/-- `calculate_velocity` (lines 44-55): tasks completed per day over the last
7 days.  Returns `none` when the Python code would raise while parsing a
`closed_at` value. -/
def calculate_velocity (now : Int) (issues : List Issue) : Option Rat :=
  let closed_issues := issues.filter fun i => i.state == "closed" && !i.pull_request
  if closed_issues.isEmpty then some 0
  else (recentClosed now closed_issues).map fun recent => (recent.length : Rat) / 7

/-- A phase record as appended to the `phases` list by `get_phase_status`. -/
structure Phase where
  phase : Nat
  name : String
  status : String
  tasks_total : Nat
  tasks_completed : Nat
  deriving DecidableEq, Repr

/-- The static `phase_mapping` dict (lines 60-67), in insertion order. -/
def phase_mapping : List (Nat × List String) :=
  [(1, ["Core Data Models", "Thread-Safe Message Store", "Mock SNS Endpoint",
        "Result Pattern Integration"]),
   (2, ["Basic Test Client", "Verification Methods", "TUnit Test Helpers"]),
   (3, ["Query Endpoints", "Advanced Queries", "ASP.NET Core Integration"]),
   (4, ["Basic Web UI", "Advanced UI Features", "Developer Tools"]),
   (5, ["Aspire Resource", "Aspire Dashboard"]),
   (6, ["Performance Optimization", "NuGet Package", "Documentation"])]

/-- The static `phase_names` dict (lines 69-76). -/
def phase_names (n : Nat) : String :=
  match n with
  | 1 => "Core Foundation"
  | 2 => "Testing Infrastructure"
  | 3 => "API & Integration"
  | 4 => "Developer Experience"
  | 5 => "Platform Integration"
  | 6 => "Production Readiness"
  | _ => ""

/-- The issues matching one phase: title contains any of the phase's task
title substrings (line 79). -/
def phaseIssues (issues : List Issue) (task_titles : List String) : List Issue :=
  issues.filter fun i => task_titles.any fun title => strContains i.title title

/-- The body of the `for phase_num, task_titles in phase_mapping.items()` loop
(lines 78-98): build one phase record. -/
def mkPhase (issues : List Issue) : Nat × List String → Phase
  | (phase_num, task_titles) =>
    let phase_issues := phaseIssues issues task_titles
    let total := phase_issues.length
    let completed := (phase_issues.filter fun i => i.state == "closed").length
    let status :=
      if completed = total ∧ total > 0 then "completed"
      else if completed > 0 then "in_progress"
      else if phase_issues.any openInProgress then "in_progress"
      else "not_started"
    { phase := phase_num, name := phase_names phase_num, status := status,
      tasks_total := total, tasks_completed := completed }

/-- `get_phase_status` (lines 57-100): one record per phase, in the fixed
enumeration order of `phase_mapping`. -/
def get_phase_status (issues : List Issue) : List Phase :=
  phase_mapping.map (mkPhase issues)

/-- A YAML scalar or mapping as held in the loaded `progress` dict. -/
inductive Yaml where
  | s : String → Yaml
  | n : Nat → Yaml
  | q : Rat → Yaml
  | m : List (String × Yaml) → Yaml

/-- Python dict read `d[k]`: first (only, for a real dict) binding of `k`. -/
def lookupKey : List (String × Yaml) → String → Option Yaml
  | [], _ => none
  | (k', v) :: rest, k => if k' = k then some v else lookupKey rest k

/-- Python dict write `d[k] = v`: overwrite in place when the key is present,
append at the end otherwise (insertion order is preserved, as for a dict). -/
def setKey : List (String × Yaml) → String → Yaml → List (String × Yaml)
  | [], k, v => [(k, v)]
  | (k', v') :: rest, k, v =>
    if k' = k then (k, v) :: rest else (k', v') :: setKey rest k v

/-- Read `d[k1][k2]` where `d[k1]` must be a mapping; `none` when the Python
expression would raise. -/
def subLookup (d : List (String × Yaml)) (k1 k2 : String) : Option Yaml :=
  match lookupKey d k1 with
  | some (Yaml.m vm) => lookupKey vm k2
  | _ => none

/-- The metrics dict of `get_project_metrics` as key/value pairs, in the
insertion order of the Python dict literal (lines 37-42). -/
def metricsPairs (m : Metrics) : List (String × Yaml) :=
  [("total_tasks", Yaml.n m.total_tasks),
   ("completed_tasks", Yaml.n m.completed_tasks),
   ("in_progress_tasks", Yaml.n m.in_progress_tasks),
   ("blocked_tasks", Yaml.n m.blocked_tasks)]

/-- Python `d.update(upd)`: assign each pair of `upd` in order. -/
def dictUpdate (d : List (String × Yaml)) : List (String × Yaml) → List (String × Yaml)
  | [] => d
  | (k, v) :: rest => dictUpdate (setKey d k v) rest

/-- `round(velocity, 2)` (line 119) on rationals.  (Python rounds ties to
even; the model rounds ties up.  No claim exercises a tie.) -/
def round2 (q : Rat) : Rat := (⌊q * 100 + 1 / 2⌋ : Int) / 100

/-- The `current_status` mapping of `progress.yaml`: the four keys the script
touches.  `phase` and `phase_name` hold whatever YAML values the existing
document carried until the script overwrites them. -/
structure CurrentStatus where
  last_updated : String
  phase : Yaml
  phase_name : Yaml
  health : String

/-- The loaded `progress.yaml` document: the three top-level keys the script
reads and writes.  The pre-existing `phases` value is replaced wholesale and
never read, so it is typed as the script's own phase records. -/
structure Doc where
  current_status : CurrentStatus
  metrics : List (String × Yaml)
  phases : List Phase

/-- The pure part of `update_progress_file` (lines 102-139): everything
between the file read and the file write.  `now` is the velocity capture of
`datetime.now` (line 51) and `nowIso` the `last_updated` capture (line 117).
`none` models an uncaught exception (missing `closed_at`, missing or
non-mapping `metrics.velocity` key, ...), which aborts the run. -/
def update_progress_file (now : Int) (nowIso : String) (issues : List Issue)
    (doc : Doc) : Option Doc :=
  match calculate_velocity now issues with
  | none => none
  | some velocity =>
    let metrics := get_project_metrics issues
    let phases := get_phase_status issues
    let cs0 := { doc.current_status with last_updated := nowIso }
    let m1 := dictUpdate doc.metrics (metricsPairs metrics)
    match lookupKey m1 "velocity" with
    | some (Yaml.m vm) =>
      let m2 := setKey m1 "velocity"
        (Yaml.m (setKey vm "current" (Yaml.q (round2 velocity))))
      let cs1 :=
        match phases.find? (fun p => p.status == "in_progress") with
        | some p => { cs0 with phase := Yaml.n p.phase, phase_name := Yaml.s p.name }
        | none => cs0
      match lookupKey m2 "blocked_tasks" with
      | some (Yaml.n blocked) =>
        let health := if blocked > 2 then "red"
                      else if blocked > 0 then "yellow" else "green"
        some { current_status := { cs1 with health := health },
               metrics := m2, phases := phases }
      | _ => none
    | _ => none

/-- One whole run of the script with its effects explicit: `readRes` is the
result of reading `progress.yaml`, `fetchRes` the result of
`get_issues()` (an `error` is a transport/authorization failure whose raw
exception propagates).  The second component lists the file writes performed,
in order; the script writes only at line 138, after every step succeeded. -/
def run_update (readRes : Except String Doc) (fetchRes : Except String (List Issue))
    (now : Int) (nowIso : String) : Except String Doc × List Doc :=
  match readRes with
  | .error e => (.error e, [])
  | .ok doc =>
    match fetchRes with
    | .error e => (.error e, [])
    | .ok issues =>
      match update_progress_file now nowIso issues doc with
      | none => (.error "unhandled exception", [])
      | some doc2 => (.ok doc2, [doc2])

/-! ### Association-list (Python dict) lemmas -/

/-- `d.any (·.1 == k)`: the key is present in the dict. -/
def hasKey (d : List (String × Yaml)) (k : String) : Bool :=
  d.any fun p => p.1 == k

theorem lookupKey_setKey_same {d : List (String × Yaml)} {k : String} {v : Yaml} :
    lookupKey (setKey d k v) k = some v := by
  induction d with
  | nil => simp [setKey, lookupKey]
  | cons p rest ih =>
    obtain ⟨k', v'⟩ := p
    by_cases h : k' = k
    · simp [setKey, lookupKey, h]
    · simp [setKey, lookupKey, h, ih]

theorem lookupKey_setKey_ne {d : List (String × Yaml)} {k k' : String} {v : Yaml}
    (h : k' ≠ k) : lookupKey (setKey d k v) k' = lookupKey d k' := by
  induction d with
  | nil => simp [setKey, lookupKey, Ne.symm h]
  | cons p rest ih =>
    obtain ⟨a, b⟩ := p
    by_cases ha : a = k
    · subst ha
      simp [setKey, lookupKey, Ne.symm h]
    · simp [setKey, lookupKey, ha, ih]

theorem setKey_setKey_same {d : List (String × Yaml)} {k : String} {v w : Yaml} :
    setKey (setKey d k v) k w = setKey d k w := by
  induction d with
  | nil => simp [setKey]
  | cons p rest ih =>
    obtain ⟨a, b⟩ := p
    by_cases ha : a = k
    · simp [setKey, ha]
    · simp [setKey, ha, ih]

theorem hasKey_setKey_self {d : List (String × Yaml)} {k : String} {v : Yaml} :
    hasKey (setKey d k v) k = true := by
  induction d with
  | nil => simp [setKey, hasKey]
  | cons p rest ih =>
    obtain ⟨a, b⟩ := p
    by_cases ha : a = k
    · simp [setKey, hasKey, ha]
    · simp only [setKey, ha, if_false, hasKey, List.any_cons]
      simp only [hasKey] at ih
      simp [ih]

theorem hasKey_setKey_of {d : List (String × Yaml)} {k k' : String} {v : Yaml}
    (h : hasKey d k' = true) : hasKey (setKey d k v) k' = true := by
  induction d with
  | nil => simp [hasKey] at h
  | cons p rest ih =>
    obtain ⟨a, b⟩ := p
    by_cases ha : a = k
    · subst ha
      simp only [hasKey, List.any_cons, Bool.or_eq_true] at h
      rcases h with h | h
      · simp [setKey, hasKey, h]
      · simp [setKey, hasKey, h]
    · simp only [hasKey, List.any_cons, Bool.or_eq_true] at h
      rcases h with h | h
      · simp [setKey, ha, hasKey, h]
      · simp only [setKey, ha, if_false, hasKey, List.any_cons]
        simp only [hasKey] at ih
        simp [ih h]

/-- Two writes to distinct keys commute provided the first key is already
present (so neither order appends it). -/
theorem setKey_comm {d : List (String × Yaml)} {k k' : String} {v w : Yaml}
    (hk : hasKey d k = true) (hne : k ≠ k') :
    setKey (setKey d k v) k' w = setKey (setKey d k' w) k v := by
  induction d with
  | nil => simp [hasKey] at hk
  | cons p rest ih =>
    obtain ⟨a, b⟩ := p
    by_cases ha : a = k
    · subst ha
      simp [setKey, fun hh : a = k' => hne hh, hne]
    · by_cases ha' : a = k'
      · subst ha'
        simp only [hasKey, List.any_cons, Bool.or_eq_true, beq_iff_eq] at hk
        rcases hk with hk | hk
        · exact absurd hk ha
        · simp only [hasKey] at ih
          simp [setKey, ha, fun hh : k = a => ha hh.symm, hasKey]
      · simp only [hasKey, List.any_cons, Bool.or_eq_true, beq_iff_eq] at hk
        rcases hk with hk | hk
        · exact absurd hk ha
        · simp only [hasKey] at ih
          simp [setKey, ha, ha', ih hk]

/-! ### C5, C6, C10: metrics counters -/

/-- C5: for every issue sequence, `total_tasks` is the number of issues
without a pull-request marker, `completed_tasks` the number of closed such
issues, hence `completed_tasks ≤ total_tasks`; the empty sequence yields the
all-zero snapshot. -/
theorem metrics_counts (issues : List Issue) :
    (get_project_metrics issues).total_tasks
      = issues.countP (fun i => !i.pull_request) ∧
    (get_project_metrics issues).completed_tasks
      = issues.countP (fun i => i.state == "closed" && !i.pull_request) ∧
    (get_project_metrics issues).completed_tasks
      ≤ (get_project_metrics issues).total_tasks ∧
    get_project_metrics [] = ⟨0, 0, 0, 0⟩ := by
  refine ⟨?_, ?_, ?_, rfl⟩
  · simp [get_project_metrics, List.countP_eq_length_filter]
  · simp [get_project_metrics, List.countP_eq_length_filter]
  · simp only [get_project_metrics]
    induction issues with
    | nil => simp
    | cons i rest ih =>
      by_cases hpr : i.pull_request
      · simp [List.filter_cons, hpr]
        exact le_trans ih (Nat.le_refl _)
      · by_cases hcl : i.state == "closed"
        · simp [List.filter_cons, hpr, hcl]
          omega
        · simp [List.filter_cons, hpr, hcl]
          omega

/-- C6: `in_progress_tasks` counts every open issue labeled "in-progress" and
`blocked_tasks` every open issue labeled "blocked", with no pull-request
exclusion — an open pull request with both labels raises both counters while
leaving `total_tasks` and `completed_tasks` (which do exclude PRs) unchanged. -/
theorem metrics_label_counts (issues : List Issue) (i : Issue)
    (hopen : i.state = "open")
    (hip : (i.labels.any fun l => l.name == "in-progress") = true)
    (hbl : (i.labels.any fun l => l.name == "blocked") = true)
    (hpr : i.pull_request = true) :
    (get_project_metrics issues).in_progress_tasks = issues.countP openInProgress ∧
    (get_project_metrics issues).blocked_tasks = issues.countP openBlocked ∧
    (get_project_metrics (i :: issues)).in_progress_tasks
      = (get_project_metrics issues).in_progress_tasks + 1 ∧
    (get_project_metrics (i :: issues)).blocked_tasks
      = (get_project_metrics issues).blocked_tasks + 1 ∧
    (get_project_metrics (i :: issues)).total_tasks
      = (get_project_metrics issues).total_tasks ∧
    (get_project_metrics (i :: issues)).completed_tasks
      = (get_project_metrics issues).completed_tasks := by
  refine ⟨by simp [get_project_metrics, List.countP_eq_length_filter],
          by simp [get_project_metrics, List.countP_eq_length_filter],
          ?_, ?_, ?_, ?_⟩ <;>
    simp [get_project_metrics, List.filter_cons, openInProgress, openBlocked,
          hopen, hip, hbl, hpr]

/-- A single open non-PR issue carrying both labels at once. -/
def bothLabelsIssue : Issue :=
  { title := "standalone", state := "open",
    labels := [⟨"in-progress"⟩, ⟨"blocked"⟩], closed_at := none,
    pull_request := false }

/-- C10: the in-progress and blocked counters are not mutually exclusive: an
open issue carrying both labels is counted once in each, and on a concrete
one-element sequence the four counters sum to 3 > 1 issues. -/
theorem metrics_double_count (issues : List Issue) (i : Issue)
    (hopen : i.state = "open")
    (hip : (i.labels.any fun l => l.name == "in-progress") = true)
    (hbl : (i.labels.any fun l => l.name == "blocked") = true) :
    (get_project_metrics (i :: issues)).in_progress_tasks
      = (get_project_metrics issues).in_progress_tasks + 1 ∧
    (get_project_metrics (i :: issues)).blocked_tasks
      = (get_project_metrics issues).blocked_tasks + 1 ∧
    (get_project_metrics [bothLabelsIssue]).total_tasks
        + (get_project_metrics [bothLabelsIssue]).completed_tasks
        + (get_project_metrics [bothLabelsIssue]).in_progress_tasks
        + (get_project_metrics [bothLabelsIssue]).blocked_tasks
      > [bothLabelsIssue].length := by
  refine ⟨?_, ?_, by decide⟩ <;>
    simp [get_project_metrics, List.filter_cons, openInProgress, openBlocked,
          hopen, hip, hbl]

/-! ### C2: velocity -/

/-- Spec-side predicate: closed and not a pull request (the velocity
population). -/
def closedNonPR (i : Issue) : Bool := i.state == "closed" && !i.pull_request

/-- Spec-side predicate: contributes to the velocity, i.e. closed, non-PR,
and closed strictly after `now - 7` days. -/
def closedWithinWeek (now : Int) (i : Issue) : Bool :=
  closedNonPR i &&
    match i.closed_at with
    | some t => decide (now - 7 * 24 * 60 * 60 < t)
    | none => false

theorem recentClosed_eq_filter (now : Int) (l : List Issue)
    (h : ∀ i ∈ l, i.closed_at ≠ none) :
    recentClosed now l =
      some (l.filter fun i =>
        match i.closed_at with
        | some t => decide (now - 7 * 24 * 60 * 60 < t)
        | none => false) := by
  induction l with
  | nil => rfl
  | cons i rest ih =>
    have hi : i.closed_at ≠ none := h i (List.mem_cons_self i rest)
    cases hca : i.closed_at with
    | none => exact absurd hca hi
    | some t =>
      have hrest := ih fun j hj => h j (List.mem_cons_of_mem i hj)
      by_cases hcond : now - 7 * 24 * 60 * 60 < t
      · simp [recentClosed, hca, hrest, List.filter_cons, hcond]
      · simp [recentClosed, hca, hrest, List.filter_cons, hcond]

/-- C2: with every closed non-PR issue carrying a parseable `closed_at`, the
velocity is the number of issues closed strictly within the trailing 7-day
window divided by 7; it is 0.0 when no closed non-PR issue exists at all; an
issue closed exactly 7 days before `now`, to the second, is excluded. -/
theorem velocity_window (now : Int) (issues : List Issue) (i : Issue)
    (hts : ∀ j ∈ issues, j.state = "closed" → j.pull_request = false →
      j.closed_at ≠ none)
    (hbound : i.closed_at = some (now - 7 * 24 * 60 * 60)) :
    calculate_velocity now issues
      = some (((issues.filter (closedWithinWeek now)).length : Rat) / 7) ∧
    ((issues.filter fun j => j.state == "closed" && !j.pull_request) = [] →
      calculate_velocity now issues = some 0) ∧
    closedWithinWeek now i = false := by
  have hsub : issues.filter (closedWithinWeek now)
      = (issues.filter fun j => j.state == "closed" && !j.pull_request).filter
          fun j => match j.closed_at with
            | some t => decide (now - 7 * 24 * 60 * 60 < t)
            | none => false := by
    rw [List.filter_filter]
    apply List.filter_congr
    intro x _
    simp [closedWithinWeek, closedNonPR, Bool.and_comm]
  refine ⟨?_, ?_, ?_⟩
  · by_cases hempty :
        (issues.filter fun j => j.state == "closed" && !j.pull_request) = []
    · rw [calculate_velocity]
      simp only [hempty, List.isEmpty_nil, if_true]
      rw [hsub, hempty]
      simp
    · have hall : ∀ j ∈ issues.filter
          (fun j => j.state == "closed" && !j.pull_request), j.closed_at ≠ none := by
        intro j hj
        rw [List.mem_filter] at hj
        obtain ⟨hjm, hjp⟩ := hj
        rw [Bool.and_eq_true] at hjp
        exact hts j hjm (by simpa using hjp.1) (by simpa using hjp.2)
      rw [calculate_velocity]
      simp only [List.isEmpty_iff, hempty, if_false]
      rw [recentClosed_eq_filter now _ hall, hsub]
      simp
  · intro hempty
    rw [calculate_velocity]
    simp [hempty]
  · simp [closedWithinWeek, hbound]

/-! ### C1: phase status classification -/

/-- Spec-side classification of a phase record built for `titles`:
"completed" exactly when completed = total > 0; otherwise "in_progress" when
some task is completed or some matching open issue is labeled "in-progress";
otherwise "not_started"; and an empty phase is always "not_started". -/
def statusSpec (issues : List Issue) (titles : List String) (p : Phase) : Prop :=
  (p.status = "completed" ↔
    p.tasks_completed = p.tasks_total ∧ 0 < p.tasks_total) ∧
  (p.status = "in_progress" ↔
    ¬(p.tasks_completed = p.tasks_total ∧ 0 < p.tasks_total) ∧
      (0 < p.tasks_completed ∨ (phaseIssues issues titles).any openInProgress = true)) ∧
  (p.status = "not_started" ↔
    ¬(p.tasks_completed = p.tasks_total ∧ 0 < p.tasks_total) ∧
      ¬(0 < p.tasks_completed) ∧
      ¬((phaseIssues issues titles).any openInProgress = true)) ∧
  (p.tasks_total = 0 → p.status = "not_started")

/-- Classification of the `status` if-chain of `get_phase_status`, abstract
in the counts and the open-in-progress test. -/
theorem statusChain_spec (total completed : Nat) (anyIP : Bool)
    (hle : completed ≤ total) (hempty : total = 0 → anyIP = false) :
    ((if completed = total ∧ total > 0 then "completed"
      else if completed > 0 then "in_progress"
      else if anyIP then "in_progress" else "not_started") = "completed"
      ↔ completed = total ∧ 0 < total) ∧
    ((if completed = total ∧ total > 0 then "completed"
      else if completed > 0 then "in_progress"
      else if anyIP then "in_progress" else "not_started") = "in_progress"
      ↔ ¬(completed = total ∧ 0 < total) ∧ (0 < completed ∨ anyIP = true)) ∧
    ((if completed = total ∧ total > 0 then "completed"
      else if completed > 0 then "in_progress"
      else if anyIP then "in_progress" else "not_started") = "not_started"
      ↔ ¬(completed = total ∧ 0 < total) ∧ ¬(0 < completed) ∧ ¬(anyIP = true)) ∧
    (total = 0 →
      (if completed = total ∧ total > 0 then "completed"
       else if completed > 0 then "in_progress"
       else if anyIP then "in_progress" else "not_started") = "not_started") := by
  by_cases h1 : completed = total ∧ total > 0
  · rw [if_pos h1]
    refine ⟨iff_of_true rfl h1, iff_of_false (by decide) ?_,
            iff_of_false (by decide) ?_, ?_⟩
    · rintro ⟨hn, _⟩
      exact hn h1
    · rintro ⟨hn, _, _⟩
      exact hn h1
    · intro h0
      exact absurd h1.2 (by omega)
  · rw [if_neg h1]
    by_cases h2 : completed > 0
    · rw [if_pos h2]
      refine ⟨iff_of_false (by decide) h1, iff_of_true rfl ⟨h1, Or.inl h2⟩,
              iff_of_false (by decide) ?_, ?_⟩
      · rintro ⟨_, hn, _⟩
        exact hn h2
      · intro h0
        omega
    · rw [if_neg h2]
      by_cases h3 : anyIP = true
      · rw [if_pos h3]
        refine ⟨iff_of_false (by decide) h1, iff_of_true rfl ⟨h1, Or.inr h3⟩,
                iff_of_false (by decide) ?_, ?_⟩
        · rintro ⟨_, _, hn⟩
          exact hn h3
        · intro h0
          rw [hempty h0] at h3
          exact absurd h3 (by decide)
      · rw [if_neg h3]
        exact ⟨iff_of_false (by decide) h1,
               iff_of_false (by decide) (by rintro ⟨_, h | h⟩
                                            · exact h2 h
                                            · exact h3 h),
               iff_of_true rfl ⟨h1, h2, h3⟩, fun _ => rfl⟩

theorem mkPhase_statusSpec (issues : List Issue) (num : Nat) (titles : List String) :
    statusSpec issues titles (mkPhase issues (num, titles)) := by
  have h := statusChain_spec (phaseIssues issues titles).length
    (((phaseIssues issues titles).filter fun i => i.state == "closed").length)
    ((phaseIssues issues titles).any openInProgress)
    (List.length_filter_le _ _)
    (fun h0 => by rw [List.length_eq_zero.mp h0]; rfl)
  exact h

/-- C1: every record produced by `get_phase_status` (one per `phase_mapping`
entry) obeys the spec's status classification, and in particular a phase with
`tasks_total = 0` is always "not_started". -/
theorem phase_status_classification (issues : List Issue) (num : Nat)
    (titles : List String) (hmem : (num, titles) ∈ phase_mapping) :
    get_phase_status issues = phase_mapping.map (mkPhase issues) ∧
    mkPhase issues (num, titles) ∈ get_phase_status issues ∧
    statusSpec issues titles (mkPhase issues (num, titles)) :=
  ⟨rfl, List.mem_map_of_mem _ hmem, mkPhase_statusSpec issues num titles⟩

/-- Witness for C1 at a concrete input: with no issues at all, phase 6 has
`tasks_total = 0` and is classified "not_started", and its record is in the
output of `get_phase_status`. -/
theorem phase_status_classification_witness :
    (mkPhase [] (6, ["Performance Optimization", "NuGet Package",
        "Documentation"])).status = "not_started" ∧
    mkPhase [] (6, ["Performance Optimization", "NuGet Package",
        "Documentation"]) ∈ get_phase_status [] := by
  have h := phase_status_classification [] 6
    ["Performance Optimization", "NuGet Package", "Documentation"] (by decide)
  exact ⟨h.2.2.2.2.2 (by rfl), h.2.1⟩

/-! ### Characterization of a successful `update_progress_file` run -/

theorem lookupKey_dictUpdate_velocity (d : List (String × Yaml)) (M : Metrics) :
    lookupKey (dictUpdate d (metricsPairs M)) "velocity" = lookupKey d "velocity" := by
  simp only [dictUpdate, metricsPairs]
  rw [lookupKey_setKey_ne (by decide), lookupKey_setKey_ne (by decide),
      lookupKey_setKey_ne (by decide), lookupKey_setKey_ne (by decide)]

theorem lookupKey_dictUpdate_blocked (d : List (String × Yaml)) (M : Metrics) :
    lookupKey (dictUpdate d (metricsPairs M)) "blocked_tasks"
      = some (Yaml.n M.blocked_tasks) := by
  simp only [dictUpdate, metricsPairs]
  exact lookupKey_setKey_same

/-- A successful run returns exactly the document the script builds: fresh
`last_updated`, current phase from the first in-progress phase (else the old
values), health classified from the blocked count, the four counters merged
into the metrics dict, `velocity.current` set inside the pre-existing
velocity sub-dict, and the phases list replaced wholesale. -/
theorem update_spec (now : Int) (nowIso : String) (issues : List Issue)
    (doc doc' : Doc)
    (h : update_progress_file now nowIso issues doc = some doc') :
    ∃ v vm, calculate_velocity now issues = some v ∧
      lookupKey doc.metrics "velocity" = some (Yaml.m vm) ∧
      doc' = { current_status :=
                 { last_updated := nowIso,
                   phase :=
                     match (get_phase_status issues).find?
                         (fun p => p.status == "in_progress") with
                     | some p => Yaml.n p.phase
                     | none => doc.current_status.phase,
                   phase_name :=
                     match (get_phase_status issues).find?
                         (fun p => p.status == "in_progress") with
                     | some p => Yaml.s p.name
                     | none => doc.current_status.phase_name,
                   health :=
                     if (get_project_metrics issues).blocked_tasks > 2 then "red"
                     else if (get_project_metrics issues).blocked_tasks > 0 then "yellow"
                     else "green" },
               metrics :=
                 setKey (dictUpdate doc.metrics (metricsPairs (get_project_metrics issues)))
                   "velocity" (Yaml.m (setKey vm "current" (Yaml.q (round2 v)))),
               phases := get_phase_status issues } := by
  rw [update_progress_file] at h
  cases hv : calculate_velocity now issues with
  | none => simp [hv] at h
  | some v =>
    simp only [hv] at h
    rw [lookupKey_dictUpdate_velocity] at h
    cases hvm : lookupKey doc.metrics "velocity" with
    | none => simp [hvm] at h
    | some yv =>
      cases yv with
      | s a => simp [hvm] at h
      | n a => simp [hvm] at h
      | q a => simp [hvm] at h
      | m vm =>
        simp only [hvm] at h
        rw [lookupKey_setKey_ne (by decide), lookupKey_dictUpdate_blocked] at h
        refine ⟨v, vm, rfl, rfl, ?_⟩
        cases hfind : (get_phase_status issues).find?
            (fun p => p.status == "in_progress") with
        | none =>
          simp only [hfind] at h
          simp only [hfind]
          exact (Option.some.inj h).symm
        | some p =>
          simp only [hfind] at h
          simp only [hfind]
          exact (Option.some.inj h).symm

/-- Component-wise reading of `update_spec` (projections pre-reduced). -/
theorem update_spec_fields (now : Int) (nowIso : String) (issues : List Issue)
    (doc doc' : Doc)
    (h : update_progress_file now nowIso issues doc = some doc') :
    ∃ v vm, calculate_velocity now issues = some v ∧
      lookupKey doc.metrics "velocity" = some (Yaml.m vm) ∧
      doc'.current_status.last_updated = nowIso ∧
      doc'.current_status.phase
        = (match (get_phase_status issues).find?
              (fun p => p.status == "in_progress") with
           | some p => Yaml.n p.phase
           | none => doc.current_status.phase) ∧
      doc'.current_status.phase_name
        = (match (get_phase_status issues).find?
              (fun p => p.status == "in_progress") with
           | some p => Yaml.s p.name
           | none => doc.current_status.phase_name) ∧
      doc'.current_status.health
        = (if (get_project_metrics issues).blocked_tasks > 2 then "red"
           else if (get_project_metrics issues).blocked_tasks > 0 then "yellow"
           else "green") ∧
      doc'.metrics
        = setKey (dictUpdate doc.metrics (metricsPairs (get_project_metrics issues)))
            "velocity" (Yaml.m (setKey vm "current" (Yaml.q (round2 v)))) ∧
      doc'.phases = get_phase_status issues := by
  obtain ⟨v, vm, hv, hvm, rfl⟩ := update_spec now nowIso issues doc doc' h
  exact ⟨v, vm, hv, hvm, rfl, rfl, rfl, rfl, rfl, rfl⟩

/-! ### C3: first in-progress phase wins -/

/-- Generic: `find?` returns exactly the element at the first satisfying
index. -/
theorem find?_of_first_index {α : Type} (P : α → Bool) (l : List α) (k : Nat)
    (hk : k < l.length) (hP : P (l.get ⟨k, hk⟩) = true)
    (hbefore : ∀ j (hj : j < k), P (l.get ⟨j, Nat.lt_trans hj hk⟩) = false) :
    l.find? P = some (l.get ⟨k, hk⟩) := by
  induction l generalizing k with
  | nil => exact absurd hk (Nat.not_lt_zero k)
  | cons a rest ih =>
    cases k with
    | zero => exact List.find?_cons_of_pos rest hP
    | succ k2 =>
      have ha : P a = false := hbefore 0 (Nat.succ_pos k2)
      rw [List.find?_cons_of_neg rest (by simp [ha])]
      exact ih k2 (Nat.lt_of_succ_lt_succ hk) hP
        (fun j hj => hbefore (j + 1) (Nat.succ_lt_succ hj))

/-- C3: the first phase (in scan order) whose status is "in_progress"
determines `current_status.phase` and `current_status.phase_name`; when no
phase is in progress both keep their previous values. -/
theorem current_phase_scan (now : Int) (nowIso : String) (issues : List Issue)
    (doc doc' : Doc)
    (h : update_progress_file now nowIso issues doc = some doc') :
    (∀ k (hk : k < (get_phase_status issues).length),
      ((get_phase_status issues).get ⟨k, hk⟩).status = "in_progress" →
      (∀ j (hj : j < k),
        ((get_phase_status issues).get ⟨j, Nat.lt_trans hj hk⟩).status
          ≠ "in_progress") →
      doc'.current_status.phase
          = Yaml.n ((get_phase_status issues).get ⟨k, hk⟩).phase ∧
      doc'.current_status.phase_name
          = Yaml.s ((get_phase_status issues).get ⟨k, hk⟩).name) ∧
    ((∀ p ∈ get_phase_status issues, p.status ≠ "in_progress") →
      doc'.current_status.phase = doc.current_status.phase ∧
      doc'.current_status.phase_name = doc.current_status.phase_name) := by
  obtain ⟨v, vm, hv, hvm, hlu, hph, hphn, hh, hm, hps⟩ :=
    update_spec_fields now nowIso issues doc doc' h
  constructor
  · intro k hk hP hbefore
    have hfind : (get_phase_status issues).find? (fun p => p.status == "in_progress")
        = some ((get_phase_status issues).get ⟨k, hk⟩) :=
      find?_of_first_index _ _ k hk (by simpa using hP)
        (fun j hj => by simpa using hbefore j hj)
    rw [hph, hphn, hfind]
    exact ⟨rfl, rfl⟩
  · intro hall
    have hfind : (get_phase_status issues).find? (fun p => p.status == "in_progress")
        = none :=
      List.find?_eq_none.mpr (fun p hp => by simpa using hall p hp)
    rw [hph, hphn, hfind]
    exact ⟨rfl, rfl⟩

/-! ### C4: health classification -/

/-- Classification of the health if-chain, abstract in the blocked count. -/
theorem healthChain_spec (b : Nat) :
    ((if b > 2 then "red" else if b > 0 then "yellow" else "green") = "red"
      ↔ 2 < b) ∧
    ((if b > 2 then "red" else if b > 0 then "yellow" else "green") = "yellow"
      ↔ b = 1 ∨ b = 2) ∧
    ((if b > 2 then "red" else if b > 0 then "yellow" else "green") = "green"
      ↔ b = 0) := by
  by_cases h1 : b > 2
  · rw [if_pos h1]
    exact ⟨iff_of_true rfl h1, iff_of_false (by decide) (by omega),
           iff_of_false (by decide) (by omega)⟩
  · rw [if_neg h1]
    by_cases h2 : b > 0
    · rw [if_pos h2]
      exact ⟨iff_of_false (by decide) h1, iff_of_true rfl (by omega),
             iff_of_false (by decide) (by omega)⟩
    · rw [if_neg h2]
      exact ⟨iff_of_false (by decide) (by omega), iff_of_false (by decide) (by omega),
             iff_of_true rfl (by omega)⟩

/-- C4: after a successful run, health is "red" iff more than 2 tasks are
blocked, "yellow" iff 1 or 2 are, "green" iff none is — a function of the
blocked count alone. -/
theorem health_classification (now : Int) (nowIso : String) (issues : List Issue)
    (doc doc' : Doc)
    (h : update_progress_file now nowIso issues doc = some doc') :
    (doc'.current_status.health = "red"
      ↔ 2 < (get_project_metrics issues).blocked_tasks) ∧
    (doc'.current_status.health = "yellow"
      ↔ ((get_project_metrics issues).blocked_tasks = 1
          ∨ (get_project_metrics issues).blocked_tasks = 2)) ∧
    (doc'.current_status.health = "green"
      ↔ (get_project_metrics issues).blocked_tasks = 0) := by
  obtain ⟨v, vm, hv, hvm, hlu, hph, hphn, hh, hm, hps⟩ :=
    update_spec_fields now nowIso issues doc doc' h
  rw [hh]
  exact healthChain_spec (get_project_metrics issues).blocked_tasks

/-! ### C7: shallow merge -/

theorem lookupKey_dictUpdate_other (d : List (String × Yaml)) (M : Metrics)
    (k : String) (h1 : k ≠ "total_tasks") (h2 : k ≠ "completed_tasks")
    (h3 : k ≠ "in_progress_tasks") (h4 : k ≠ "blocked_tasks") :
    lookupKey (dictUpdate d (metricsPairs M)) k = lookupKey d k := by
  simp only [dictUpdate, metricsPairs]
  rw [lookupKey_setKey_ne h4, lookupKey_setKey_ne h3, lookupKey_setKey_ne h2,
      lookupKey_setKey_ne h1]

/-- C7: the metrics merge is shallow — any metrics key other than the four
counters and `velocity` keeps its previous value, and inside the `velocity`
sub-mapping any key other than `current` keeps its previous value. -/
theorem metrics_shallow_merge (now : Int) (nowIso : String) (issues : List Issue)
    (doc doc' : Doc) (k k2 : String)
    (h : update_progress_file now nowIso issues doc = some doc')
    (h1 : k ≠ "total_tasks") (h2 : k ≠ "completed_tasks")
    (h3 : k ≠ "in_progress_tasks") (h4 : k ≠ "blocked_tasks")
    (h5 : k ≠ "velocity") (h6 : k2 ≠ "current") :
    lookupKey doc'.metrics k = lookupKey doc.metrics k ∧
    subLookup doc'.metrics "velocity" k2 = subLookup doc.metrics "velocity" k2 := by
  obtain ⟨v, vm, hv, hvm, hlu, hph, hphn, hh, hm, hps⟩ :=
    update_spec_fields now nowIso issues doc doc' h
  constructor
  · rw [hm, lookupKey_setKey_ne h5, lookupKey_dictUpdate_other _ _ _ h1 h2 h3 h4]
  · simp only [hm, subLookup, lookupKey_setKey_same, hvm]
    exact lookupKey_setKey_ne h6

/-! ### C8: no partial success -/

/-- C8: a run writes the file exactly once, and only on full success; a read
failure or a fetch (transport/authorization) failure propagates as-is and
nothing is written. -/
theorem no_partial_success (readRes : Except String Doc)
    (fetchRes : Except String (List Issue)) (now : Int) (nowIso : String)
    (doc : Doc) (e : String) :
    (run_update readRes fetchRes now nowIso).2
      = (match (run_update readRes fetchRes now nowIso).1 with
         | Except.error _ => []
         | Except.ok d => [d]) ∧
    run_update (Except.error e) fetchRes now nowIso = (Except.error e, []) ∧
    run_update (Except.ok doc) (Except.error e) now nowIso = (Except.error e, []) := by
  refine ⟨?_, rfl, rfl⟩
  cases readRes with
  | error e2 => rfl
  | ok d2 =>
    cases fetchRes with
    | error e2 => rfl
    | ok iss =>
      cases hu : update_progress_file now nowIso iss d2 with
      | none => simp [run_update, hu]
      | some d3 => simp [run_update, hu]

/-! ### Concrete witness inputs -/

/-- Concrete issues used in witnesses: one closed phase-1 task (closed on day
6, inside the week before `now = 604800`) and one open blocked phase-1 task. -/
def wIssues : List Issue :=
  [{ title := "Core Data Models", state := "closed", labels := [],
     closed_at := some 518400, pull_request := false },
   { title := "Mock SNS Endpoint", state := "open",
     labels := [{ name := "blocked" }], closed_at := none,
     pull_request := false }]

/-- An issue closed exactly 7 days (to the second) before `now = 604800`. -/
def boundaryIssue : Issue :=
  { title := "Boundary", state := "closed", labels := [], closed_at := some 0,
    pull_request := false }

/-- An open pull request carrying both labels. -/
def prBothLabels : Issue :=
  { title := "Some PR", state := "open",
    labels := [{ name := "in-progress" }, { name := "blocked" }],
    closed_at := none, pull_request := true }

/-- A concrete pre-existing progress document used in witnesses, with a
custom metrics key and a velocity target entry that a run must preserve. -/
def wStatus : CurrentStatus :=
  { last_updated := "2025-01-01T00:00:00+00:00", phase := Yaml.n 9,
    phase_name := Yaml.s "old", health := "green" }

def wDoc : Doc :=
  { current_status := wStatus,
    metrics := [("custom", Yaml.s "keepme"),
                ("velocity", Yaml.m [("current", Yaml.q 0), ("target", Yaml.q 3)])],
    phases := [] }

/-- The document written by a run at `now = 604800` on `wIssues`/`wDoc`. -/
def wDoc' : Doc :=
  (update_progress_file 604800 "2025-01-08T00:00:00+00:00" wIssues wDoc).getD wDoc

/-- Witness for C2: on `wIssues` the velocity is 1/7 (one task closed within
the window), and the boundary issue closed exactly 7 days ago is excluded. -/
theorem velocity_window_witness :
    calculate_velocity 604800 wIssues = some (1 / 7) ∧
    closedWithinWeek 604800 boundaryIssue = false := by
  have h := velocity_window 604800 wIssues boundaryIssue (by decide) (by decide)
  have hlen : (wIssues.filter (closedWithinWeek 604800)).length = 1 := by decide
  refine ⟨h.1.trans ?_, h.2.2⟩
  rw [hlen]
  simp

/-- Witness for C3: on `wIssues` phase 1 (index 0) is the first in-progress
phase and the run points `current_status` at it. -/
theorem current_phase_scan_witness :
    wDoc'.current_status.phase = Yaml.n 1 ∧
    wDoc'.current_status.phase_name = Yaml.s "Core Foundation" := by
  have h := (current_phase_scan 604800 "2025-01-08T00:00:00+00:00" wIssues wDoc wDoc'
    rfl).1 0 (by decide) (by decide) (fun j hj => absurd hj (Nat.not_lt_zero j))
  exact h

/-- Witness for C4: `wIssues` has exactly one blocked task, so health is
"yellow". -/
theorem health_classification_witness :
    wDoc'.current_status.health = "yellow" := by
  have h := health_classification 604800 "2025-01-08T00:00:00+00:00" wIssues wDoc wDoc' rfl
  exact h.2.1.mpr (Or.inl (by decide))

/-- Witness for C6: prepending an open both-labeled pull request bumps
`in_progress_tasks` but leaves `total_tasks` unchanged. -/
theorem metrics_label_counts_witness :
    (get_project_metrics (prBothLabels :: wIssues)).in_progress_tasks
      = (get_project_metrics wIssues).in_progress_tasks + 1 ∧
    (get_project_metrics (prBothLabels :: wIssues)).total_tasks
      = (get_project_metrics wIssues).total_tasks := by
  have h := metrics_label_counts wIssues prBothLabels rfl (by decide) (by decide) rfl
  exact ⟨h.2.2.1, h.2.2.2.2.1⟩

/-- Witness for C7: the custom metrics key and the velocity target survive
the run on `wIssues`/`wDoc` unchanged. -/
theorem metrics_shallow_merge_witness :
    lookupKey wDoc'.metrics "custom" = some (Yaml.s "keepme") ∧
    subLookup wDoc'.metrics "velocity" "target" = some (Yaml.q 3) := by
  have h := metrics_shallow_merge 604800 "2025-01-08T00:00:00+00:00" wIssues wDoc wDoc'
    "custom" "target" rfl (by decide) (by decide) (by decide) (by decide) (by decide)
    (by decide)
  exact ⟨h.1.trans (by rfl), h.2.trans (by rfl)⟩

/-- Witness for C10: prepending the open both-labeled issue bumps both label
counters at once. -/
theorem metrics_double_count_witness :
    (get_project_metrics (bothLabelsIssue :: wIssues)).in_progress_tasks
      = (get_project_metrics wIssues).in_progress_tasks + 1 ∧
    (get_project_metrics (bothLabelsIssue :: wIssues)).blocked_tasks
      = (get_project_metrics wIssues).blocked_tasks + 1 := by
  have h := metrics_double_count wIssues bothLabelsIssue rfl (by decide) (by decide)
  exact ⟨h.1, h.2.1⟩

/-! ### C9: re-running on stable input -/

theorem lookupKey_dictUpdate_counters (d : List (String × Yaml)) (M : Metrics) :
    lookupKey (dictUpdate d (metricsPairs M)) "total_tasks"
      = some (Yaml.n M.total_tasks) ∧
    lookupKey (dictUpdate d (metricsPairs M)) "completed_tasks"
      = some (Yaml.n M.completed_tasks) ∧
    lookupKey (dictUpdate d (metricsPairs M)) "in_progress_tasks"
      = some (Yaml.n M.in_progress_tasks) ∧
    lookupKey (dictUpdate d (metricsPairs M)) "blocked_tasks"
      = some (Yaml.n M.blocked_tasks) := by
  refine ⟨?_, ?_, ?_, ?_⟩ <;> simp only [dictUpdate, metricsPairs]
  · rw [lookupKey_setKey_ne (by decide), lookupKey_setKey_ne (by decide),
        lookupKey_setKey_ne (by decide)]
    exact lookupKey_setKey_same
  · rw [lookupKey_setKey_ne (by decide), lookupKey_setKey_ne (by decide)]
    exact lookupKey_setKey_same
  · rw [lookupKey_setKey_ne (by decide)]
    exact lookupKey_setKey_same
  · exact lookupKey_setKey_same

theorem hasKey_of_lookupKey {d : List (String × Yaml)} {k : String} {v : Yaml}
    (h : lookupKey d k = some v) : hasKey d k = true := by
  induction d with
  | nil => simp [lookupKey] at h
  | cons p rest ih =>
    obtain ⟨a, b⟩ := p
    by_cases ha : a = k
    · simp [hasKey, ha]
    · rw [lookupKey, if_neg ha] at h
      simp only [hasKey, List.any_cons, Bool.or_eq_true]
      exact Or.inr (by simpa [hasKey] using ih h)

theorem hasKey_dictUpdate_of {d : List (String × Yaml)} {k : String} (M : Metrics)
    (h : hasKey d k = true) :
    hasKey (dictUpdate d (metricsPairs M)) k = true := by
  simp only [dictUpdate, metricsPairs]
  exact hasKey_setKey_of (hasKey_setKey_of (hasKey_setKey_of (hasKey_setKey_of h)))

/-- Merging the four counters into a dict that already has a `velocity` key
commutes with (re)setting that key. -/
theorem dictUpdate_setKey_velocity {A : List (String × Yaml)} {M : Metrics}
    {X : Yaml} (hA : hasKey A "velocity" = true) :
    dictUpdate (setKey A "velocity" X) (metricsPairs M)
      = setKey (dictUpdate A (metricsPairs M)) "velocity" X := by
  simp only [dictUpdate, metricsPairs]
  have h1 : hasKey (setKey A "total_tasks" (Yaml.n M.total_tasks))
      "velocity" = true := hasKey_setKey_of hA
  have h2 : hasKey (setKey (setKey A "total_tasks" (Yaml.n M.total_tasks))
      "completed_tasks" (Yaml.n M.completed_tasks)) "velocity" = true :=
    hasKey_setKey_of h1
  have h3 : hasKey (setKey (setKey (setKey A "total_tasks" (Yaml.n M.total_tasks))
      "completed_tasks" (Yaml.n M.completed_tasks)) "in_progress_tasks"
      (Yaml.n M.in_progress_tasks)) "velocity" = true := hasKey_setKey_of h2
  rw [setKey_comm hA (by decide), setKey_comm h1 (by decide),
      setKey_comm h2 (by decide), setKey_comm h3 (by decide)]

/-- Merging the same four counter values twice is the same as merging them
once. -/
theorem dictUpdate_metricsPairs_idem (d : List (String × Yaml)) (M : Metrics) :
    dictUpdate (dictUpdate d (metricsPairs M)) (metricsPairs M)
      = dictUpdate d (metricsPairs M) := by
  simp only [dictUpdate, metricsPairs]
  set A1 := setKey d "total_tasks" (Yaml.n M.total_tasks) with hA1
  set A2 := setKey A1 "completed_tasks" (Yaml.n M.completed_tasks) with hA2
  set A3 := setKey A2 "in_progress_tasks" (Yaml.n M.in_progress_tasks) with hA3
  set A4 := setKey A3 "blocked_tasks" (Yaml.n M.blocked_tasks) with hA4
  have hkt1 : hasKey A1 "total_tasks" = true := hasKey_setKey_self
  have hkt2 : hasKey A2 "total_tasks" = true := hasKey_setKey_of hkt1
  have hkt3 : hasKey A3 "total_tasks" = true := hasKey_setKey_of hkt2
  have hkc2 : hasKey A2 "completed_tasks" = true := hasKey_setKey_self
  have hkc3 : hasKey A3 "completed_tasks" = true := hasKey_setKey_of hkc2
  have hki3 : hasKey A3 "in_progress_tasks" = true := hasKey_setKey_self
  have ht : setKey A4 "total_tasks" (Yaml.n M.total_tasks) = A4 := by
    rw [hA4, ← setKey_comm hkt3 (by decide), hA3, ← setKey_comm hkt2 (by decide),
        hA2, ← setKey_comm hkt1 (by decide), hA1, setKey_setKey_same]
  have hc : setKey A4 "completed_tasks" (Yaml.n M.completed_tasks) = A4 := by
    rw [hA4, ← setKey_comm hkc3 (by decide), hA3, ← setKey_comm hkc2 (by decide),
        hA2, setKey_setKey_same]
  have hi : setKey A4 "in_progress_tasks" (Yaml.n M.in_progress_tasks) = A4 := by
    rw [hA4, ← setKey_comm hki3 (by decide), hA3, setKey_setKey_same]
  have hb : setKey A4 "blocked_tasks" (Yaml.n M.blocked_tasks) = A4 := by
    rw [hA4, setKey_setKey_same]
  rw [ht, hc, hi, hb]

theorem doc_ext {a b : Doc}
    (h1 : a.current_status.last_updated = b.current_status.last_updated)
    (h2 : a.current_status.phase = b.current_status.phase)
    (h3 : a.current_status.phase_name = b.current_status.phase_name)
    (h4 : a.current_status.health = b.current_status.health)
    (hm : a.metrics = b.metrics) (hp : a.phases = b.phases) : a = b := by
  obtain ⟨acs, am, ap⟩ := a
  obtain ⟨bcs, bm, bp⟩ := b
  obtain ⟨a1, a2, a3, a4⟩ := acs
  obtain ⟨b1, b2, b3, b4⟩ := bcs
  simp_all

/-- C9 (amended): a second run on the same issue data reproduces the phases
sequence, every metrics entry except the nested `velocity.current`, and the
current-status fields except `last_updated`; when the two runs capture the
same instant the whole document is reproduced except `last_updated`. -/
theorem rerun_stable (now1 now2 : Int) (iso1 iso2 : String) (issues : List Issue)
    (doc d1 d2 : Doc) (k k2 : String)
    (h1 : update_progress_file now1 iso1 issues doc = some d1)
    (h2 : update_progress_file now2 iso2 issues d1 = some d2)
    (hk : k ≠ "velocity") (hk2 : k2 ≠ "current") :
    d2.phases = d1.phases ∧
    lookupKey d2.metrics k = lookupKey d1.metrics k ∧
    subLookup d2.metrics "velocity" k2 = subLookup d1.metrics "velocity" k2 ∧
    d2.current_status.phase = d1.current_status.phase ∧
    d2.current_status.phase_name = d1.current_status.phase_name ∧
    d2.current_status.health = d1.current_status.health ∧
    d2.current_status.last_updated = iso2 ∧
    (now2 = now1 →
      d2 = { d1 with
             current_status := { d1.current_status with last_updated := iso2 } }) := by
  obtain ⟨v1, vm, hv1, hvm, hd1⟩ := update_spec now1 iso1 issues doc d1 h1
  obtain ⟨v2, vm1, hv2, hvm1, hd2⟩ := update_spec now2 iso2 issues d1 d2 h2
  have hm1 : d1.metrics
      = setKey (dictUpdate doc.metrics (metricsPairs (get_project_metrics issues)))
          "velocity" (Yaml.m (setKey vm "current" (Yaml.q (round2 v1)))) := by
    rw [hd1]
  have hm2 : d2.metrics
      = setKey (dictUpdate d1.metrics (metricsPairs (get_project_metrics issues)))
          "velocity" (Yaml.m (setKey vm1 "current" (Yaml.q (round2 v2)))) := by
    rw [hd2]
  have hph1 : d1.current_status.phase
      = (match (get_phase_status issues).find? (fun p => p.status == "in_progress") with
         | some p => Yaml.n p.phase
         | none => doc.current_status.phase) := by
    rw [hd1]
  have hph2 : d2.current_status.phase
      = (match (get_phase_status issues).find? (fun p => p.status == "in_progress") with
         | some p => Yaml.n p.phase
         | none => d1.current_status.phase) := by
    rw [hd2]
  have hphn1 : d1.current_status.phase_name
      = (match (get_phase_status issues).find? (fun p => p.status == "in_progress") with
         | some p => Yaml.s p.name
         | none => doc.current_status.phase_name) := by
    rw [hd1]
  have hphn2 : d2.current_status.phase_name
      = (match (get_phase_status issues).find? (fun p => p.status == "in_progress") with
         | some p => Yaml.s p.name
         | none => d1.current_status.phase_name) := by
    rw [hd2]
  have hh1 : d1.current_status.health
      = (if (get_project_metrics issues).blocked_tasks > 2 then "red"
         else if (get_project_metrics issues).blocked_tasks > 0 then "yellow"
         else "green") := by
    rw [hd1]
  have hh2 : d2.current_status.health
      = (if (get_project_metrics issues).blocked_tasks > 2 then "red"
         else if (get_project_metrics issues).blocked_tasks > 0 then "yellow"
         else "green") := by
    rw [hd2]
  have hps1 : d1.phases = get_phase_status issues := by rw [hd1]
  have hps2 : d2.phases = get_phase_status issues := by rw [hd2]
  have hlu2 : d2.current_status.last_updated = iso2 := by rw [hd2]
  have hphase : d2.current_status.phase = d1.current_status.phase := by
    rw [hph2]
    cases hfind : (get_phase_status issues).find? (fun p => p.status == "in_progress") with
    | none => rfl
    | some p => rw [hph1, hfind]
  have hphasen : d2.current_status.phase_name = d1.current_status.phase_name := by
    rw [hphn2]
    cases hfind : (get_phase_status issues).find? (fun p => p.status == "in_progress") with
    | none => rfl
    | some p => rw [hphn1, hfind]
  have hhealth : d2.current_status.health = d1.current_status.health := by
    rw [hh2, hh1]
  refine ⟨hps2.trans hps1.symm, ?_, ?_, hphase, hphasen, hhealth, hlu2, ?_⟩
  · rw [hm2, lookupKey_setKey_ne hk]
    by_cases hkt : k = "total_tasks"
    · subst hkt
      rw [(lookupKey_dictUpdate_counters d1.metrics (get_project_metrics issues)).1,
          hm1, lookupKey_setKey_ne hk,
          (lookupKey_dictUpdate_counters doc.metrics (get_project_metrics issues)).1]
    · by_cases hkc : k = "completed_tasks"
      · subst hkc
        rw [(lookupKey_dictUpdate_counters d1.metrics (get_project_metrics issues)).2.1,
            hm1, lookupKey_setKey_ne hk,
            (lookupKey_dictUpdate_counters doc.metrics (get_project_metrics issues)).2.1]
      · by_cases hki : k = "in_progress_tasks"
        · subst hki
          rw [(lookupKey_dictUpdate_counters d1.metrics
                (get_project_metrics issues)).2.2.1,
              hm1, lookupKey_setKey_ne hk,
              (lookupKey_dictUpdate_counters doc.metrics
                (get_project_metrics issues)).2.2.1]
        · by_cases hkb : k = "blocked_tasks"
          · subst hkb
            rw [(lookupKey_dictUpdate_counters d1.metrics
                  (get_project_metrics issues)).2.2.2,
                hm1, lookupKey_setKey_ne hk,
                (lookupKey_dictUpdate_counters doc.metrics
                  (get_project_metrics issues)).2.2.2]
          · rw [lookupKey_dictUpdate_other _ _ _ hkt hkc hki hkb]
  · rw [hm2]
    simp only [subLookup, lookupKey_setKey_same, hvm1]
    exact lookupKey_setKey_ne hk2
  · intro heq
    rw [heq] at hv2
    have hveq : v2 = v1 := Option.some.inj (hv2.symm.trans hv1)
    have hvel1 : lookupKey d1.metrics "velocity"
        = some (Yaml.m (setKey vm "current" (Yaml.q (round2 v1)))) := by
      rw [hm1, lookupKey_setKey_same]
    have hvm1m : setKey vm "current" (Yaml.q (round2 v1)) = vm1 := by
      have hj := Option.some.inj ((hvel1.symm).trans hvm1)
      injection hj
    have hA : hasKey (dictUpdate doc.metrics (metricsPairs (get_project_metrics issues)))
        "velocity" = true :=
      hasKey_dictUpdate_of _ (hasKey_of_lookupKey hvm)
    have hmEq : d2.metrics = d1.metrics := by
      rw [hm2, hm1, hveq, ← hvm1m, setKey_setKey_same,
          dictUpdate_setKey_velocity hA, setKey_setKey_same,
          dictUpdate_metricsPairs_idem]
    exact doc_ext hlu2 hphase hphasen hhealth hmEq (hps2.trans hps1.symm)

/-- A second run on the same issues and the same capture instant. -/
def wDoc2 : Doc :=
  (update_progress_file 604800 "2025-01-15T00:00:00+00:00" wIssues wDoc').getD wDoc'

/-- Witness for C9 (amended): the second run reproduces phases, custom
metrics keys and health, and with the same capture instant the whole
document except `last_updated`. -/
theorem rerun_stable_witness :
    wDoc2.phases = wDoc'.phases ∧
    lookupKey wDoc2.metrics "custom" = lookupKey wDoc'.metrics "custom" ∧
    wDoc2.current_status.health = wDoc'.current_status.health ∧
    wDoc2 = { wDoc' with
              current_status := { wDoc'.current_status with
                                  last_updated := "2025-01-15T00:00:00+00:00" } } := by
  have h := rerun_stable 604800 604800 "2025-01-08T00:00:00+00:00"
    "2025-01-15T00:00:00+00:00" wIssues wDoc wDoc' wDoc2 "custom" "target"
    rfl rfl (by decide) (by decide)
  exact ⟨h.1, h.2.1, h.2.2.2.2.2.1, h.2.2.2.2.2.2.2 rfl⟩

/-- One task closed 1 second inside the 7-day window of a run at
`now = 604800`, but outside the window of a rerun at `now = 604802`. -/
def cIssues : List Issue :=
  [{ title := "Core Data Models", state := "closed", labels := [],
     closed_at := some 1, pull_request := false }]

/-- Result of the first run on `cIssues`. -/
def cDoc1 : Doc := (update_progress_file 604800 "t1" cIssues wDoc).getD wDoc

/-- Result of the rerun two seconds later on the same `cIssues`. -/
def cDoc2 : Doc := (update_progress_file 604802 "t2" cIssues cDoc1).getD cDoc1

/-- Counterexample to C9 as stated: re-running with the same issue data does
NOT leave the metrics identical — the closed task leaves the 7-day window
between the two captures, so `metrics.velocity.current` drops from
0.14 (= 7/50) to 0.0 and the metrics mappings differ. -/
theorem rerun_stable_counterexample :
    update_progress_file 604800 "t1" cIssues wDoc = some cDoc1 ∧
    update_progress_file 604802 "t2" cIssues cDoc1 = some cDoc2 ∧
    subLookup cDoc1.metrics "velocity" "current" = some (Yaml.q (7 / 50)) ∧
    subLookup cDoc2.metrics "velocity" "current" = some (Yaml.q 0) ∧
    cDoc1.metrics ≠ cDoc2.metrics := by
  have r1 : round2 (((1 : Nat) : Rat) / 7) = 7 / 50 := by
    rw [round2]
    norm_num
  have r2 : round2 (((0 : Nat) : Rat) / 7) = 0 := by
    rw [round2]
    norm_num
  have e1 : subLookup cDoc1.metrics "velocity" "current"
      = some (Yaml.q (round2 (((1 : Nat) : Rat) / 7))) := rfl
  have e2 : subLookup cDoc2.metrics "velocity" "current"
      = some (Yaml.q (round2 (((0 : Nat) : Rat) / 7))) := rfl
  have e1' : subLookup cDoc1.metrics "velocity" "current"
      = some (Yaml.q (7 / 50)) := by rw [e1, r1]
  have e2' : subLookup cDoc2.metrics "velocity" "current"
      = some (Yaml.q 0) := by rw [e2, r2]
  refine ⟨rfl, rfl, e1', e2', ?_⟩
  intro hEq
  have hc : subLookup cDoc1.metrics "velocity" "current"
      = subLookup cDoc2.metrics "velocity" "current" :=
    congrArg (fun mm => subLookup mm "velocity" "current") hEq
  rw [e1', e2'] at hc
  have hq := Option.some.inj hc
  injection hq with hval
  exact absurd hval (by norm_num)

end TopicTracker
